import Mathlib

/-!
Verification of the HD Cinema Bot (HDC_File repository).

This file gives a shallow embedding, in Lean 4, of the parts of the
repository's Python source that the specification's claims are about:

* `helper_func.py` : `encode`, `decode` (URL-safe base64 helpers),
  `handle_file_expiry` (expiry countdown loop);
* `plugins/channel_post.py` / `plugins/link_generator.py` : deep-link
  payload generation (`"get-" + message_id * abs(channel_id)`);
* `plugins/start.py` : deep-link payload parsing, search de-duplication,
  broadcast loop user deletion;
* `plugins/rerequest.py` : the re-request callback handler;
* `database/database.py` : the MongoDB collection operations
  (`add_user`, `ban_user`, `unban_user`, `delete_user`,
  `log_file_download`, `add_file_to_index`, group/settings writes);
* `plugins/workspace.py` : the in-memory `WORKSPACE_SESSIONS` table.

Strings are modelled as lists of natural-number code points; machine
integers are modelled as `Nat`/`Int` (Python integers are unbounded).
Each definition carries a comment naming the source line(s) it embeds.
-/

namespace HDC

/-- Code points of a Lean string literal; used to write ASCII string
constants from the Python source readably. -/
def strCodes (s : String) : List Nat := s.data.map Char.toNat

/-! ## Decimal rendering and parsing of Python integers -/

/-- ASCII digits of `n`, least significant first (helper for `str(n)`). -/
def natDigitsRev (n : Nat) : List Nat :=
  if h : n < 10 then [48 + n]
  else (48 + n % 10) :: natDigitsRev (n / 10)
decreasing_by exact Nat.div_lt_self (by omega) (by omega)

/-- Python `str(n)` for a nonnegative integer `n`: decimal ASCII digits,
most significant first. -/
def natToAscii (n : Nat) : List Nat := (natDigitsRev n).reverse

/-- ASCII decimal digit test (`'0' ≤ c ≤ '9'`). -/
def isDigitCode (c : Nat) : Prop := 48 ≤ c ∧ c ≤ 57

instance (c : Nat) : Decidable (isDigitCode c) := by
  unfold isDigitCode; infer_instance

/-- ASCII whitespace accepted by Python's `int()` around the digits. -/
def isSpaceCode (c : Nat) : Prop := c = 32 ∨ c = 9 ∨ c = 10 ∨ c = 13 ∨ c = 11 ∨ c = 12

instance (c : Nat) : Decidable (isSpaceCode c) := by
  unfold isSpaceCode; infer_instance

/-- Value of a most-significant-first ASCII digit string. -/
def digitsVal (l : List Nat) : Nat := l.foldl (fun a c => a * 10 + (c - 48)) 0

/-- Drop elements satisfying `p` from the right end of a list. -/
def dropRightWhileP (p : Nat → Bool) (l : List Nat) : List Nat :=
  ((l.reverse).dropWhile p).reverse

/-- The argument of Python's `int()` with surrounding whitespace removed. -/
def pyIntCore (l : List Nat) : List Nat :=
  dropRightWhileP (fun c => decide (isSpaceCode c))
    (l.dropWhile (fun c => decide (isSpaceCode c)))

/-- Splits an optional leading sign (`+`/`-`) off a trimmed numeral. -/
def pyIntSigned : List Nat → Bool × List Nat
  | 43 :: rest => (false, rest)
  | 45 :: rest => (true, rest)
  | rest => (false, rest)

/-- Python `int(s)` on a string `s` (given as code points): optional
surrounding ASCII whitespace, an optional sign, then one or more decimal
digits; anything else raises `ValueError`, modelled as `none`.
(Underscore digit grouping, which Python also accepts, cannot occur at
the call sites embedded here: every parsed fragment is produced by
splitting on `"-"` or `"_"`, so it never contains a separator.) -/
def pyInt (l : List Nat) : Option Int :=
  match pyIntSigned (pyIntCore l) with
  | (neg, digits) =>
    if digits ≠ [] ∧ digits.all (fun c => decide (isDigitCode c)) then
      some (if neg then -(digitsVal digits : Int) else (digitsVal digits : Int))
    else none

/-! ## Python `str.split(sep)` -/

/-- Helper for `pySplit`: accumulates the current fragment (reversed). -/
def pySplitAux (sep : Nat) : List Nat → List Nat → List (List Nat)
  | [], acc => [acc.reverse]
  | c :: rest, acc =>
    if c = sep then acc.reverse :: pySplitAux sep rest []
    else pySplitAux sep rest (c :: acc)

/-- Python `s.split(sep)` for a one-character separator: always returns
at least one fragment; adjacent separators yield empty fragments. -/
def pySplit (sep : Nat) (l : List Nat) : List (List Nat) := pySplitAux sep l []

/-! ## URL-safe base64 (`base64.urlsafe_b64encode` / `urlsafe_b64decode`)

The URL-safe alphabet is `A-Z a-z 0-9 - _`; `=` (code 61) is padding. -/

/-- Character (code point) of a six-bit group under the URL-safe base64
alphabet. -/
def sextetToChar (n : Nat) : Nat :=
  if n < 26 then 65 + n
  else if n < 52 then 97 + (n - 26)
  else if n < 62 then 48 + (n - 52)
  else if n = 62 then 45
  else 95

/-- Inverse alphabet lookup: `none` on a character outside the URL-safe
base64 alphabet. -/
def charToSextet (c : Nat) : Option Nat :=
  if 65 ≤ c ∧ c ≤ 90 then some (c - 65)
  else if 97 ≤ c ∧ c ≤ 122 then some (26 + (c - 97))
  else if 48 ≤ c ∧ c ≤ 57 then some (52 + (c - 48))
  else if c = 45 then some 62
  else if c = 95 then some 63
  else none

/-- Six-bit groups of a byte string, three bytes at a time
(the data characters of its base64 encoding, before alphabet mapping). -/
def encodeChunks : List Nat → List Nat
  | [] => []
  | [b0] => [b0 / 4, b0 % 4 * 16]
  | [b0, b1] => [b0 / 4, b0 % 4 * 16 + b1 / 16, b1 % 16 * 4]
  | b0 :: b1 :: b2 :: rest =>
    b0 / 4 :: (b0 % 4 * 16 + b1 / 16) :: (b1 % 16 * 4 + b2 / 64) :: b2 % 64 ::
      encodeChunks rest

/-- Bytes recovered from a list of six-bit groups whose length is
`0`, `2` or `3` modulo `4` (a length of `1` modulo `4` is rejected,
as `binascii` rejects it). -/
def decodeSextets : List Nat → Option (List Nat)
  | [] => some []
  | [_] => none
  | [s0, s1] => some [s0 * 4 + s1 / 16]
  | [s0, s1, s2] => some [s0 * 4 + s1 / 16, s1 % 16 * 16 + s2 / 4]
  | s0 :: s1 :: s2 :: s3 :: rest =>
    (decodeSextets rest).map fun tail =>
      (s0 * 4 + s1 / 16) :: (s1 % 16 * 16 + s2 / 4) :: (s2 % 4 * 64 + s3) :: tail

/-- Alphabet lookup over a whole string: `none` if any character is
outside the URL-safe base64 alphabet. -/
def mapSextets : List Nat → Option (List Nat)
  | [] => some []
  | c :: rest => do
    let v ← charToSextet c
    let tail ← mapSextets rest
    some (v :: tail)

/-- `base64.urlsafe_b64encode`: alphabet-mapped six-bit groups followed
by `'='` padding to a multiple of four characters. -/
def b64encodePadded (s : List Nat) : List Nat :=
  (encodeChunks s).map sextetToChar ++ List.replicate ((3 - s.length % 3) % 3) 61

/-- Python `s.strip(c)` for a one-character argument: removes every
leading and trailing occurrence of that character. -/
def stripEq (c : Nat) (l : List Nat) : List Nat :=
  dropRightWhileP (fun x => decide (x = c)) (l.dropWhile (fun x => decide (x = c)))

/-- `base64.urlsafe_b64decode` on a padded string: requires a length
divisible by four, strips the trailing `'='` padding, rejects `'='`
elsewhere and any character outside the alphabet, and rebuilds the
bytes.  (CPython's lenient decoder silently discards some malformed
characters instead; the bot only ever decodes payloads produced by
`encode`, which are well formed, and on those the two agree.) -/
def b64decodePadded (l : List Nat) : Option (List Nat) :=
  if l.length % 4 ≠ 0 then none
  else if (dropRightWhileP (fun x => decide (x = 61)) l).any (fun x => decide (x = 61))
    then none
  else if (dropRightWhileP (fun x => decide (x = 61)) l).length % 4 = 1 then none
  else do
    let sx ← mapSextets (dropRightWhileP (fun x => decide (x = 61)) l)
    decodeSextets sx

/-- `helper_func.encode` (helper_func.py lines 58-63):
`string.encode("ascii")` (raises — `none` — on a non-ASCII code point),
`base64.urlsafe_b64encode`, then `.strip("=")`. -/
def encode (s : List Nat) : Option (List Nat) :=
  if s.all (fun b => decide (b < 128)) then
    some (stripEq 61 (b64encodePadded s))
  else none

/-- `helper_func.decode` (helper_func.py lines 65-71):
`.strip("=")`, re-pad with `"=" * (-len % 4)`, `urlsafe_b64decode`,
then `.decode("ascii")` (raises — `none` — on a byte ≥ 128). -/
def decode (t : List Nat) : Option (List Nat) :=
  match b64decodePadded
      (stripEq 61 t ++ List.replicate ((4 - (stripEq 61 t).length % 4) % 4) 61) with
  | none => none
  | some bytes => if bytes.all (fun b => decide (b < 128)) then some bytes else none

/-! ## Deep links (C1): payload generation and the /start parser -/

/-- `channel_post.py` lines 78-80 and `link_generator.py` line 89: the
string encoded into a single-file deep link is
`f"get-{message_id * abs(channel_id)}"`.  `msgId` is the DB-channel
message id, `chanAbs` is `abs(client.db_channel.id)`. -/
def singleLinkString (msgId chanAbs : Nat) : List Nat :=
  strCodes "get-" ++ natToAscii (msgId * chanAbs)

/-- `link_generator.py` line 53: the string encoded into a batch deep
link is `f"get-{first_id * abs(cid)}-{last_id * abs(cid)}"`. -/
def batchLinkString (firstId lastId chanAbs : Nat) : List Nat :=
  strCodes "get-" ++ natToAscii (firstId * chanAbs) ++ strCodes "-"
    ++ natToAscii (lastId * chanAbs)

/-- Python `int(a / b)` for integer `a` and positive integer `b`:
true division produces a correctly rounded float, and `int()` truncates
it toward zero.  Modelled as exact truncated integer division, which
agrees with Python whenever the quotient is an exact integer below
`2 ^ 53` — in particular at every call site proved about below, where
`b` divides `a`. -/
def pyTruncDiv (a : Int) (b : Nat) : Int := a.sign * (a.natAbs / b : Nat)

/-- Python `range(a, b)` over integers, as the list it enumerates. -/
def pyRange (a b : Int) : List Int :=
  (List.range (b - a).toNat).map (fun i : Nat => a + (i : Int))

/-- Outcome of the deep-link branch of `start_command`. -/
inductive StartAction where
  | served (ids : List Int)
  | welcome
  | linkError
deriving DecidableEq

/-- Dispatch on the fragments of the decoded payload (`args` in
`start.py`): three fragments give an inclusive `range(start, end + 1)`
batch, two fragments a single id, each id being
`int(int(fragment) / abs(client.db_channel.id))`; any other fragment
count shows the welcome message.  A raised exception (`int()` failure or
division by zero) propagates as `none` and is reported as an invalid
link. -/
def startPayloadArgsAction (chanAbs : Nat) : List (List Nat) → StartAction
  | [_, a1, a2] =>
    if chanAbs = 0 then .linkError
    else
      (((pyInt a1).bind fun v1 => (pyInt a2).map fun v2 =>
        StartAction.served
          (pyRange (pyTruncDiv v1 chanAbs) (pyTruncDiv v2 chanAbs + 1))).getD
        .linkError)
  | [_, a1] =>
    if chanAbs = 0 then .linkError
    else
      (((pyInt a1).map fun v =>
        StartAction.served [pyTruncDiv v chanAbs]).getD .linkError)
  | _ => .welcome

/-- `start.py` lines 97-110 (`start_command`, file/batch payload branch):
decode the payload, split the result on `"-"` and dispatch on the
fragment count; a decode failure is caught and reported as an invalid
link. -/
def startPayloadAction (chanAbs : Nat) (payload : List Nat) : StartAction :=
  ((decode payload).map fun s =>
    startPayloadArgsAction chanAbs (pySplit 45 s)).getD .linkError

/-! ## The file index (C3): `database.py` lines 193-224 -/

/-- The attributes of a pyrogram media object read by
`add_file_to_index`: `file_unique_id` plus the optional
`file_name` / `file_size` / `duration` attributes. -/
structure MediaInfo where
  fileUniqueId : String
  fileName : Option String
  fileSize : Option Nat
  duration : Option Nat
deriving DecidableEq

/-- The fields of a pyrogram `Message` read by `add_file_to_index`:
`message.id`, `message.date` and the four media slots tried in order. -/
structure IndexMessage where
  id : Nat
  date : Nat
  document : Option MediaInfo
  video : Option MediaInfo
  photo : Option MediaInfo
  audio : Option MediaInfo
deriving DecidableEq

/-- One document of the `file_index` collection:
`{_id, file_unique_id, file_name, file_size, date_added, duration}`. -/
structure FileEntry where
  id : Nat
  fileUniqueId : String
  fileName : String
  fileSize : Nat
  dateAdded : Nat
  duration : Nat
deriving DecidableEq

/-- `message.document or message.video or message.photo or message.audio`
(database.py line 201): the first non-`None` media slot. -/
def messageMedia (m : IndexMessage) : Option MediaInfo :=
  (m.document.or m.video).or (m.photo.or m.audio)

/-- `database.py` lines 193-198, `find_file_by_unique_id`:
`file_index.find_one({'file_unique_id': uid})`. -/
def find_file_by_unique_id (uid : String) (idx : List FileEntry) : Option FileEntry :=
  idx.find? (fun e => decide (e.fileUniqueId = uid))

/-- `database.py` lines 200-224, `add_file_to_index`: no media returns
`"failed"`; an existing entry with the same `file_unique_id` returns
`"duplicate"`; otherwise `insert_one` adds the entry — unless the
insert violates a unique index (the `_id` index, since the
`file_unique_id` index was already checked), which raises
`DuplicateKeyError`, caught and returned as `"duplicate"`.
(`OperationFailure`, a server-side I/O failure, is not modelled.) -/
def addFileToIndexMedia (msgId msgDate : Nat) (media : MediaInfo)
    (idx : List FileEntry) : String × List FileEntry :=
  if (find_file_by_unique_id media.fileUniqueId idx).isSome then ("duplicate", idx)
  else if idx.any (fun e => decide (e.id = msgId)) then ("duplicate", idx)
  else ("new", idx ++ [{ id := msgId
                         fileUniqueId := media.fileUniqueId
                         fileName := media.fileName.getD "Photo"
                         fileSize := media.fileSize.getD 0
                         dateAdded := msgDate
                         duration := media.duration.getD 0 }])

def add_file_to_index (msg : IndexMessage) (idx : List FileEntry) :
    String × List FileEntry :=
  match messageMedia msg with
  | none => ("failed", idx)
  | some media => addFileToIndexMedia msg.id msg.date media idx

/-! ## The expiry countdown (C4): `helper_func.py` lines 144-186 -/

/-- The first instant at or after `endTime` reached by the countdown
loop's sleep schedule (helper_func.py lines 151-163: sleep 15 s while
more than 60 s remain, else 5 s); message edits are instantaneous in
the model. -/
def expiryExitTime (now endTime : Nat) : Nat :=
  if now < endTime then
    expiryExitTime (now + (if endTime - now > 60 then 15 else 5)) endTime
  else now
termination_by endTime - now
decreasing_by split <;> omega

/-- What `handle_file_expiry` leaves in place of the countdown message. -/
inductive ExpiryFinalMsg where
  | finalExpired
  | rerequestButton (callbackData : List Nat)
deriving DecidableEq

/-- Observable outcome of `handle_file_expiry`: when the copied file
message was deleted and what the countdown message was replaced with. -/
structure ExpiryOutcome where
  deletionTime : Nat
  fileDeleted : Bool
  finalMsg : ExpiryFinalMsg
deriving DecidableEq

/-- helper_func.py line 172: `f"rerequest_{db_message_id}_{expiry_timestamp}"`. -/
def rerequestCallbackData (dbMessageId expiryTimestamp : Nat) : List Nat :=
  strCodes "rerequest_" ++ natToAscii dbMessageId ++ strCodes "_"
    ++ natToAscii expiryTimestamp

/-- `helper_func.py` lines 144-186, `handle_file_expiry`: run the
countdown loop from `start_time` to `start_time + AUTO_DELETE_TIME`,
delete the copied file message, then either show the final-expired text
(re-request delivery) or attach the re-request button whose callback
data embeds `int(time.time()) + RE_REQUEST_EXPIRY_HOURS * 3600`.
Telegram-side edit/delete failures (the `except` arms) are not
modelled. -/
def handle_file_expiry (startTime autoDeleteTime reRequestExpiryHours dbMessageId : Nat)
    (isRerequest : Bool) : ExpiryOutcome :=
  { deletionTime := expiryExitTime startTime (startTime + autoDeleteTime)
    fileDeleted := true
    finalMsg :=
      if isRerequest then .finalExpired
      else .rerequestButton (rerequestCallbackData dbMessageId
        (expiryExitTime startTime (startTime + autoDeleteTime)
          + reRequestExpiryHours * 3600)) }


/-- Sample media message: document with unique id `"u1"` (used by the
C3 witness and counterexample). -/
def sampleIndexMsg : IndexMessage :=
  { id := 10, date := 99
    document := some { fileUniqueId := "u1", fileName := some "name.mkv"
                       fileSize := some 123, duration := some 45 }
    video := none, photo := none, audio := none }

/-- Sample message whose `_id` collides with `clashIdx`'s entry. -/
def clashMsg : IndexMessage :=
  { id := 5, date := 0
    document := some { fileUniqueId := "u1", fileName := some "f"
                       fileSize := some 1, duration := some 2 }
    video := none, photo := none, audio := none }

/-- An index holding an entry with `_id = 5` but a different
`file_unique_id`. -/
def clashIdx : List FileEntry :=
  [{ id := 5, fileUniqueId := "u2", fileName := "g", fileSize := 1
     dateAdded := 0, duration := 0 }]

/-! ## The MongoDB collections (C5, C6, C7): `database.py` -/

/-- One document of the `users` collection: `{_id, banned, joined_date}`.
`joined_date` is absent (`none`) on documents created by the
`ban_user`/`unban_user` upserts, which `$set` only `banned`. -/
structure UserDoc where
  banned : Bool
  joinedDate : Option Nat
deriving DecidableEq

/-- One document of the `analytics` collection:
`{file_id, user_id, timestamp}` (database.py line 124). -/
structure AnalyticsRecord where
  fileId : Nat
  userId : Int
  timestamp : Nat
deriving DecidableEq

/-- One document of the `groups` collection: `{_id, name, approved_on}`. -/
structure GroupDoc where
  name : String
  approvedOn : Nat
deriving DecidableEq

/-- The collections of the bot's MongoDB database (database.py lines
27-31, plus the `settings` collection of lines 233-240).  Collections
are association lists keyed by `_id`; `_id` is Mongo's unique primary
key, so `update_one`/`delete_one` filtered on `_id` touch at most one
document. -/
structure Db where
  users : List (Int × UserDoc)
  analytics : List AnalyticsRecord
  fileIndex : List FileEntry
  groups : List (Int × GroupDoc)
  settings : List (String × String)
deriving DecidableEq

/-- The effect of pymongo's
`update_one({'_id': k}, {'$set': ...}, upsert=True)` on a collection:
when a document with `_id = k` exists it is updated in place by `f`;
otherwise the fresh document `d` is inserted. -/
def mongoUpsert {β : Type} (k : Int) (f : β → β) (d : β)
    (l : List (Int × β)) : List (Int × β) :=
  if (l.lookup k).isSome then
    l.map (fun p => if p.1 = k then (p.1, f p.2) else p)
  else l ++ [(k, d)]

/-- `database.py` lines 83-85, `add_user`:
`update_one({'_id': uid}, {'$set': {'banned': False},
'$setOnInsert': {'joined_date': now}}, upsert=True)`. -/
def add_user (userId : Int) (now : Nat) (db : Db) : Db :=
  { db with users := (mongoUpsert userId (fun d => { d with banned := false })
      { banned := false, joinedDate := some now } db.users) }

/-- `database.py` lines 109-110, `ban_user`:
`update_one({'_id': uid}, {'$set': {'banned': True}}, upsert=True)` —
an upsert, so an absent user id gets a fresh document holding only the
`banned` flag. -/
def ban_user (userId : Int) (db : Db) : Db :=
  { db with users := (mongoUpsert userId (fun d => { d with banned := true })
      { banned := true, joinedDate := none } db.users) }

/-- `database.py` lines 112-113, `unban_user`: as `ban_user` with
`banned = False`. -/
def unban_user (userId : Int) (db : Db) : Db :=
  { db with users := (mongoUpsert userId (fun d => { d with banned := false })
      { banned := false, joinedDate := none } db.users) }

/-- `database.py` lines 115-117, `delete_user`:
`delete_one({'_id': uid})` (at most one document matches the primary
key). -/
def delete_user (userId : Int) (db : Db) : Db :=
  { db with users := db.users.filter (fun p => decide (p.1 ≠ userId)) }

/-- `database.py` lines 123-125, `log_file_download`:
`analytics.insert_one({'file_id', 'user_id', 'timestamp'})`. -/
def log_file_download (fileId : Nat) (userId : Int) (now : Nat) (db : Db) : Db :=
  { db with analytics :=
      db.analytics ++ [{ fileId := fileId, userId := userId, timestamp := now }] }

/-- `add_file_to_index` (database.py lines 200-224) acting on the whole
database. -/
def db_add_file_to_index (msg : IndexMessage) (db : Db) : Db :=
  { db with fileIndex := (add_file_to_index msg db.fileIndex).2 }

/-- `database.py` lines 64-67, `add_group`: upsert of
`{name, approved_on}`. -/
def add_group (groupId : Int) (name : String) (now : Nat) (db : Db) : Db :=
  { db with groups := (mongoUpsert groupId (fun _ => { name := name, approvedOn := now })
      { name := name, approvedOn := now } db.groups) }

/-- `database.py` lines 69-71, `remove_group`: `delete_one({'_id': gid})`. -/
def remove_group (groupId : Int) (db : Db) : Db :=
  { db with groups := db.groups.filter (fun p => decide (p.1 ≠ groupId)) }

/-- `database.py` lines 239-240, `set_setting`: upsert of `{value}`. -/
def set_setting (key value : String) (db : Db) : Db :=
  { db with settings :=
      if (db.settings.lookup key).isSome then
        db.settings.map (fun p => if p.1 = key then (p.1, value) else p)
      else db.settings ++ [(key, value)] }

/-- Every write the repository performs on the bot's MongoDB database.
Enumerated from `database.py` — the only module touching the
`users` / `analytics` / `file_index` / `groups` / `settings`
collections; every other database access in the source is a read
(`find`, `aggregate`, `count_documents`, `dbStats`).  (The divergent
revisions `webapp/main.py` and `bot/main.py` use separate `files` /
`access_logs` collections of their own database handle and never touch
these.) -/
inductive DbOp where
  | addUser (userId : Int) (now : Nat)
  | banUser (userId : Int)
  | unbanUser (userId : Int)
  | deleteUser (userId : Int)
  | logFileDownload (fileId : Nat) (userId : Int) (now : Nat)
  | addFileToIndex (msg : IndexMessage)
  | addGroup (groupId : Int) (name : String) (now : Nat)
  | removeGroup (groupId : Int)
  | setSetting (key value : String)
deriving DecidableEq

def applyDbOp : DbOp → Db → Db
  | .addUser u t, db => add_user u t db
  | .banUser u, db => ban_user u db
  | .unbanUser u, db => unban_user u db
  | .deleteUser u, db => delete_user u db
  | .logFileDownload f u t, db => log_file_download f u t db
  | .addFileToIndex msg, db => db_add_file_to_index msg db
  | .addGroup g n t, db => add_group g n t db
  | .removeGroup g, db => remove_group g db
  | .setSetting k v, db => set_setting k v db

/-- The empty database. -/
def dbEmpty : Db :=
  { users := [], analytics := [], fileIndex := [], groups := [], settings := [] }

/-- Every code path of the repository's handlers that invokes one of
the database writes, with the database operation it performs.
Enumerated from the plugins:
`start_command` registration (start.py line 73), file serving
(start.py line 170), the admin panel's ban/unban buttons
(admin.py lines 247/250), the two broadcast loops' handlers for
`UserIsBlocked`/`InputUserDeactivated` (start.py line 265,
admin.py line 307) — the only callers of `delete_user` —, file indexing
(linker.py lines 134/168/202), group approval/removal
(group_manager.py lines 95/146/151, admin.py line 358) and settings
writes (`set_setting`, no caller in this revision but kept for
completeness). -/
inductive BotStep where
  | startRegister (userId : Int) (now : Nat)
  | startServe (fileId : Nat) (userId : Int) (now : Nat)
  | adminBan (userId : Int)
  | adminUnban (userId : Int)
  | broadcastBlockedStart (userId : Int)
  | broadcastBlockedAdmin (userId : Int)
  | indexFile (msg : IndexMessage)
  | approveGroup (groupId : Int) (name : String) (now : Nat)
  | disapproveGroup (groupId : Int)
  | storeSetting (key value : String)
deriving DecidableEq

/-- The database write of each handler step. -/
def botStepOp : BotStep → DbOp
  | .startRegister u t => .addUser u t
  | .startServe f u t => .logFileDownload f u t
  | .adminBan u => .banUser u
  | .adminUnban u => .unbanUser u
  | .broadcastBlockedStart u => .deleteUser u
  | .broadcastBlockedAdmin u => .deleteUser u
  | .indexFile msg => .addFileToIndex msg
  | .approveGroup g n t => .addGroup g n t
  | .disapproveGroup g => .removeGroup g
  | .storeSetting k v => .setSetting k v

def applyBotStep (s : BotStep) (db : Db) : Db := applyDbOp (botStepOp s) db


/-- A database whose `users` collection holds user `5` (C6 witness). -/
def dbUser5 : Db :=
  { dbEmpty with users := [(5, { banned := false, joinedDate := some 0 })] }

/-! ## Workspace sessions (C2): `plugins/workspace.py` -/

/-- `config.py` line 103: `SESSION_TIMEOUT` (default 1800 s).  The
variable is defined but never imported or read anywhere in the source. -/
def SESSION_TIMEOUT : Nat := 1800

/-- One `WORKSPACE_SESSIONS` entry (workspace.py lines 101-108). -/
structure WsSession where
  msgId : Nat
  fileName : String
  fileSize : Nat
  duration : Nat
  filePath : Option String
  lastActive : Nat
deriving DecidableEq

/-- `workspace.py` lines 125-129 (callback handler): when the admin has
a session matching the callback's `msg_id`, refresh `last_active`. -/
def touchSession (userId : Int) (msgId now : Nat)
    (st : List (Int × WsSession)) : List (Int × WsSession) :=
  match st.lookup userId with
  | some sess =>
    if sess.msgId = msgId then
      mongoUpsert userId (fun s => { s with lastActive := now })
        { sess with lastActive := now } st
    else st
  | none => st

/-- `workspace.py` lines 149-155 (the Close Session button): when the
admin has a session matching the callback's `msg_id`, pop it (and
remove its downloaded file). -/
def wsCleanup (userId : Int) (msgId : Nat)
    (st : List (Int × WsSession)) : List (Int × WsSession) :=
  match st.lookup userId with
  | some sess =>
    if sess.msgId = msgId then st.filter (fun p => decide (p.1 ≠ userId))
    else st
  | none => st

/-- `workspace.py` lines 223-266 (`run_process_and_notify`): when the
admin still has a session, record the downloaded file path and refresh
`last_active`; otherwise do nothing. -/
def wsProcessing (userId : Int) (path : String) (now : Nat)
    (st : List (Int × WsSession)) : List (Int × WsSession) :=
  match st.lookup userId with
  | some sess =>
    mongoUpsert userId (fun s => { s with filePath := some path, lastActive := now })
      { sess with filePath := some path, lastActive := now } st
  | none => st

/-- Every write to the in-memory `WORKSPACE_SESSIONS` dictionary in the
source, enumerated from `workspace.py` (its only module): `/process`
pops any previous session (line 80); receiving the video inserts one
(line 101); every workspace callback refreshes `last_active`
(line 129); the Close Session button pops (line 154); a processing run
caches the file path and refreshes `last_active` (lines 261/266).
`tick` is the passage of time with no handler running: the bot's only
background task is `notify_admin_on_restart` (bot.py line 100), no task
reads `WORKSPACE_SESSIONS` or `SESSION_TIMEOUT`, so time alone changes
nothing. -/
inductive WsEvent where
  | processCommand (userId : Int)
  | videoReceived (userId : Int) (sess : WsSession)
  | callbackTouch (userId : Int) (msgId now : Nat)
  | cleanupCallback (userId : Int) (msgId : Nat)
  | processingRun (userId : Int) (path : String) (now : Nat)
  | tick (now : Nat)
deriving DecidableEq

def applyWsEvent : WsEvent → List (Int × WsSession) → List (Int × WsSession)
  | .processCommand u, st => st.filter (fun p => decide (p.1 ≠ u))
  | .videoReceived u sess, st => mongoUpsert u (fun _ => sess) sess st
  | .callbackTouch u m now, st => touchSession u m now st
  | .cleanupCallback u m, st => wsCleanup u m st
  | .processingRun u path now, st => wsProcessing u path now st
  | .tick _, st => st

def applyWsEvents (es : List WsEvent) (st : List (Int × WsSession)) :
    List (Int × WsSession) :=
  es.foldl (fun s e => applyWsEvent e s) st

/-- A session created at time 0 (its `last_active` stays 0). -/
def staleSession : WsSession :=
  { msgId := 3, fileName := "v.mp4", fileSize := 1, duration := 60
    filePath := none, lastActive := 0 }

/-- `WORKSPACE_SESSIONS` holding only admin 1's stale session. -/
def staleState : List (Int × WsSession) := [(1, staleSession)]

/-! ## The re-request callback (C9): `plugins/rerequest.py` -/

/-- Outcome of `rerequest_callback_handler` visible to the user. -/
inductive RerequestOutcome where
  | brokenAlert
  | expiredEdit
  | fileNotFound
  | resent (dbMessageId : Int)
deriving DecidableEq

/-- `rerequest.py` lines 34-40: `_, a, b = query.data.split("_")` with
`int()` conversion of both parts; a fragment count other than three or
a failed conversion raises, answered with the broken-button alert. -/
def parseRerequest (data : List Nat) : Option (Int × Int) :=
  match pySplit 95 data with
  | [_, p1, p2] =>
    match pyInt p1, pyInt p2 with
    | some a, some b => some (a, b)
    | _, _ => none
  | _ => none

/-- The expiry check and re-send of `rerequest.py` lines 43-88: if the
current time is past the embedded timestamp, edit the prompt to
`FINAL_EXPIRED_MSG` and send nothing; otherwise re-send the fetched
file (or report it missing).  Time is modelled in whole seconds;
Telegram send failures (the outer `except`) are not modelled. -/
def rerequestDecision (dbMessageId expiryTimestamp now : Int)
    (fileFound : Bool) : RerequestOutcome :=
  if now > expiryTimestamp then .expiredEdit
  else if fileFound then .resent dbMessageId
  else .fileNotFound

/-- `rerequest.py` lines 26-88, `rerequest_callback_handler`. -/
def rerequest_callback_handler (data : List Nat) (now : Int)
    (fileFound : Bool) : RerequestOutcome :=
  match parseRerequest data with
  | none => .brokenAlert
  | some (dbMessageId, expiryTimestamp) =>
    rerequestDecision dbMessageId expiryTimestamp now fileFound

/-! ## Search de-duplication (C10): `plugins/start.py` line 86 -/

/-- The fields of a search-result document read by the `/start`
de-duplication: `doc.get('file_name')` (`none` models a document with
no `file_name` key) plus the `_id` to tell documents apart; the other
document fields play no role in the computation. -/
structure SearchDoc where
  docId : Nat
  fileName : Option String
deriving DecidableEq

/-- `start.py` line 86:
`[doc for i, doc in enumerate(results)
  if doc.get('file_name') not in {d.get('file_name') for d in results[:i]}]`. -/
def dedupResults (results : List SearchDoc) : List SearchDoc :=
  (results.enum).filterMap (fun p =>
    if (results.take p.1).any (fun d => decide (d.fileName = p.2.fileName)) then none
    else some p.2)

/-- De-duplication with an accumulated already-seen-name test `bad`
(proof vehicle for `dedupResults`). -/
def dedupForbid (bad : Option String → Bool) : List SearchDoc → List SearchDoc
  | [] => []
  | d :: rest =>
    if bad d.fileName then dedupForbid bad rest
    else d :: dedupForbid (fun o => bad o || decide (d.fileName = o)) rest

/-- Three search results, first and third sharing a file name
(C10 witness input). -/
def sampleResults : List SearchDoc :=
  [{ docId := 1, fileName := some "x" }, { docId := 2, fileName := some "y" },
   { docId := 3, fileName := some "x" }]

/-! ## Theorems -/

/-! ## Round-trip lemmas for the base64 helpers -/

lemma decodeSextets_encodeChunks (s : List Nat) (h : ∀ b ∈ s, b < 256) :
    decodeSextets (encodeChunks s) = some s := by
  induction s using encodeChunks.induct with
  | case1 => rfl
  | case2 b0 =>
    have hb0 : b0 < 256 := h b0 (by simp)
    simp only [encodeChunks, decodeSextets, Option.some.injEq, List.cons.injEq, and_true]
    omega
  | case3 b0 b1 =>
    have hb0 : b0 < 256 := h b0 (by simp)
    have hb1 : b1 < 256 := h b1 (by simp)
    simp only [encodeChunks, decodeSextets, Option.some.injEq, List.cons.injEq, and_true]
    exact ⟨by omega, by omega⟩
  | case4 b0 b1 b2 rest ih =>
    have hb0 : b0 < 256 := h b0 (by simp)
    have hb1 : b1 < 256 := h b1 (by simp)
    have hb2 : b2 < 256 := h b2 (by simp)
    have hrest : ∀ b ∈ rest, b < 256 := fun b hb => h b (by simp [hb])
    simp only [encodeChunks, decodeSextets, ih hrest, Option.map_some',
      Option.some.injEq, List.cons.injEq, and_true]
    exact ⟨by omega, by omega, by omega⟩

lemma charToSextet_sextetToChar {n : Nat} (h : n < 64) :
    charToSextet (sextetToChar n) = some n := by
  have : ∀ m : Fin 64, charToSextet (sextetToChar m.val) = some m.val := by decide
  exact this ⟨n, h⟩

lemma sextetToChar_ne_61 {n : Nat} (h : n < 64) : sextetToChar n ≠ 61 := by
  have : ∀ m : Fin 64, sextetToChar m.val ≠ 61 := by decide
  exact this ⟨n, h⟩

lemma sextetToChar_lt_128 {n : Nat} (h : n < 64) : sextetToChar n < 128 := by
  have : ∀ m : Fin 64, sextetToChar m.val < 128 := by decide
  exact this ⟨n, h⟩

lemma encodeChunks_lt (s : List Nat) (h : ∀ b ∈ s, b < 256) :
    ∀ v ∈ encodeChunks s, v < 64 := by
  induction s using encodeChunks.induct with
  | case1 => simp [encodeChunks]
  | case2 b0 =>
    have hb0 : b0 < 256 := h b0 (by simp)
    simp only [encodeChunks, List.mem_cons, List.mem_singleton]
    rintro v (rfl | rfl | h) <;> first | omega | cases h
  | case3 b0 b1 =>
    have hb0 : b0 < 256 := h b0 (by simp)
    have hb1 : b1 < 256 := h b1 (by simp)
    simp only [encodeChunks, List.mem_cons, List.mem_singleton]
    rintro v (rfl | rfl | rfl | h) <;> first | omega | cases h
  | case4 b0 b1 b2 rest ih =>
    have hb0 : b0 < 256 := h b0 (by simp)
    have hb1 : b1 < 256 := h b1 (by simp)
    have hb2 : b2 < 256 := h b2 (by simp)
    have hrest : ∀ b ∈ rest, b < 256 := fun b hb => h b (by simp [hb])
    simp only [encodeChunks, List.mem_cons]
    rintro v (rfl | rfl | rfl | rfl | hmem)
    · omega
    · omega
    · omega
    · omega
    · exact ih hrest v hmem

lemma encodeChunks_length_mod (s : List Nat) :
    (encodeChunks s).length % 4 ≠ 1 := by
  induction s using encodeChunks.induct with
  | case1 => simp [encodeChunks]
  | case2 b0 => simp [encodeChunks]
  | case3 b0 b1 => simp [encodeChunks]
  | case4 b0 b1 b2 rest ih =>
    simp only [encodeChunks, List.length_cons] at ih ⊢
    omega

lemma mapSextets_map (l : List Nat) (h : ∀ v ∈ l, v < 64) :
    mapSextets (l.map sextetToChar) = some l := by
  induction l with
  | nil => rfl
  | cons v rest ih =>
    have hv : v < 64 := h v (by simp)
    have hrest : ∀ w ∈ rest, w < 64 := fun w hw => h w (by simp [hw])
    simp only [List.map_cons, mapSextets, charToSextet_sextetToChar hv,
      Option.bind_eq_bind, Option.some_bind, ih hrest]

lemma dropWhile_replicate_append (p : Nat → Bool) (c : Nat) (hp : p c = true)
    (k : Nat) (x : List Nat) :
    List.dropWhile p (List.replicate k c ++ x) = List.dropWhile p x := by
  induction k with
  | zero => simp
  | succ n ih =>
    rw [List.replicate_succ, List.cons_append, List.dropWhile_cons, if_pos hp]
    exact ih

lemma dropWhile_of_forall_not (p : Nat → Bool) (l : List Nat)
    (h : ∀ a ∈ l, p a = false) : List.dropWhile p l = l := by
  cases l with
  | nil => rfl
  | cons a rest => simp [List.dropWhile_cons, h a (by simp)]

lemma dropRightWhileP_append_replicate (l : List Nat) (k : Nat)
    (h : ∀ c ∈ l, c ≠ 61) :
    dropRightWhileP (fun x => decide (x = 61)) (l ++ List.replicate k 61) = l := by
  unfold dropRightWhileP
  rw [List.reverse_append, List.reverse_replicate,
    dropWhile_replicate_append _ 61 (by simp) k,
    dropWhile_of_forall_not _ _ (by
      intro a ha
      simp only [List.mem_reverse] at ha
      simp [h a ha]),
    List.reverse_reverse]

lemma stripEq_append_replicate (l : List Nat) (k : Nat) (h : ∀ c ∈ l, c ≠ 61) :
    stripEq 61 (l ++ List.replicate k 61) = l := by
  unfold stripEq
  cases l with
  | nil =>
    simp only [List.nil_append]
    rw [show List.dropWhile (fun x => decide (x = 61)) (List.replicate k 61)
        = ([] : List Nat) by
      have hrep := dropWhile_replicate_append (fun x => decide (x = 61)) 61 (by simp) k []
      rwa [List.append_nil, List.dropWhile_nil] at hrep]
    unfold dropRightWhileP
    simp
  | cons a rest =>
    have ha : (decide (a = 61)) = false := by simp [h a (by simp)]
    rw [List.cons_append, List.dropWhile_cons, ha]
    simp only [Bool.false_eq_true, if_false]
    rw [← List.cons_append]
    exact dropRightWhileP_append_replicate (a :: rest) k h

lemma stripEq_of_no_61 (l : List Nat) (h : ∀ c ∈ l, c ≠ 61) :
    stripEq 61 l = l := by
  have h0 := stripEq_append_replicate l 0 h
  rwa [List.replicate_zero, List.append_nil] at h0

/-- The claim's round-trip property for the base64 helper pair
(`helper_func.encode` / `helper_func.decode`). -/
lemma decode_encode (s : List Nat) (h : ∀ b ∈ s, b < 128) :
    (encode s).bind decode = some s := by
  have h256 : ∀ b ∈ s, b < 256 := fun b hb => Nat.lt_trans (h b hb) (by norm_num)
  have hchars : ∀ c ∈ (encodeChunks s).map sextetToChar, c ≠ 61 := by
    intro c hc
    simp only [List.mem_map] at hc
    obtain ⟨v, hv, rfl⟩ := hc
    exact sextetToChar_ne_61 (encodeChunks_lt s h256 v hv)
  have hencode : encode s = some ((encodeChunks s).map sextetToChar) := by
    unfold encode
    rw [if_pos (by simp only [List.all_eq_true, decide_eq_true_eq]; exact h)]
    unfold b64encodePadded
    rw [stripEq_append_replicate _ _ hchars]
  rw [hencode, Option.some_bind]
  set t : List Nat := (encodeChunks s).map sextetToChar with ht
  have hb64 : b64decodePadded (t ++ List.replicate ((4 - t.length % 4) % 4) 61)
      = some s := by
    unfold b64decodePadded
    rw [if_neg (by simp only [List.length_append, List.length_replicate]; omega)]
    rw [dropRightWhileP_append_replicate t _ hchars]
    rw [if_neg (by
      simp only [List.any_eq_true, decide_eq_true_eq, not_exists]
      exact fun c hc => hchars c hc.1 hc.2)]
    rw [if_neg (by
      have := encodeChunks_length_mod s
      simpa [ht] using this)]
    simp only [ht, Option.bind_eq_bind]
    rw [mapSextets_map _ (encodeChunks_lt s h256), Option.some_bind,
      decodeSextets_encodeChunks s h256]
  unfold decode
  rw [stripEq_of_no_61 t hchars, hb64]
  show (if (s.all fun b => decide (b < 128)) = true then some s else none) = some s
  rw [if_pos (by simp only [List.all_eq_true, decide_eq_true_eq]; exact h)]

/-- C8.  For every ASCII string `s`, `decode (encode s) = s`: the
URL-safe base64 helper pair of `helper_func.py` (encode: lines 58-63,
strip trailing padding; decode: lines 65-71, restore padding to a
multiple of four) round-trips every payload the bot encodes. -/
theorem encode_decode_roundtrip (s : List Nat) (h : ∀ b ∈ s, b < 128) :
    (encode s).bind decode = some s :=
  decode_encode s h

/-- Witness for `encode_decode_roundtrip` at the ASCII string "get-123". -/
theorem encode_decode_roundtrip_witness :
    (∀ b ∈ ([103, 101, 116, 45, 49, 50, 51] : List Nat), b < 128) ∧
      (encode [103, 101, 116, 45, 49, 50, 51]).bind decode
        = some [103, 101, 116, 45, 49, 50, 51] :=
  ⟨by decide, encode_decode_roundtrip [103, 101, 116, 45, 49, 50, 51] (by decide)⟩

/-! ## Lemmas on decimal rendering and parsing -/

lemma natDigitsRev_mem (n : Nat) : ∀ c ∈ natDigitsRev n, 48 ≤ c ∧ c ≤ 57 := by
  induction n using natDigitsRev.induct with
  | case1 n hn =>
    unfold natDigitsRev
    rw [dif_pos hn]
    intro c hc
    simp only [List.mem_singleton] at hc
    omega
  | case2 n hn ih =>
    unfold natDigitsRev
    rw [dif_neg hn]
    intro c hc
    rcases List.mem_cons.mp hc with rfl | hmem
    · have := Nat.mod_lt n (show 0 < 10 by omega)
      omega
    · exact ih c hmem

lemma natDigitsRev_ne_nil (n : Nat) : natDigitsRev n ≠ [] := by
  unfold natDigitsRev
  by_cases hn : n < 10
  · rw [dif_pos hn]; simp
  · rw [dif_neg hn]; simp

lemma natToAscii_mem (n : Nat) : ∀ c ∈ natToAscii n, 48 ≤ c ∧ c ≤ 57 := by
  intro c hc
  exact natDigitsRev_mem n c (List.mem_reverse.mp hc)

lemma natToAscii_ne_nil (n : Nat) : natToAscii n ≠ [] := by
  unfold natToAscii
  simp only [ne_eq, List.reverse_eq_nil_iff]
  exact natDigitsRev_ne_nil n

lemma digitsVal_append_singleton (l : List Nat) (c : Nat) :
    digitsVal (l ++ [c]) = digitsVal l * 10 + (c - 48) := by
  unfold digitsVal
  rw [List.foldl_append]
  rfl

lemma digitsVal_natToAscii (n : Nat) : digitsVal (natToAscii n) = n := by
  unfold natToAscii
  induction n using natDigitsRev.induct with
  | case1 n hn =>
    unfold natDigitsRev
    rw [dif_pos hn]
    simp only [List.reverse_singleton]
    unfold digitsVal
    simp only [List.foldl_cons, List.foldl_nil]
    omega
  | case2 n hn ih =>
    unfold natDigitsRev
    rw [dif_neg hn]
    rw [List.reverse_cons, digitsVal_append_singleton, ih]
    omega

lemma digit_not_space {c : Nat} (h48 : 48 ≤ c) (h57 : c ≤ 57) :
    (decide (isSpaceCode c)) = false := by
  simp only [decide_eq_false_iff_not]
  unfold isSpaceCode
  omega

lemma dropRightWhileP_of_forall_not (p : Nat → Bool) (l : List Nat)
    (h : ∀ a ∈ l, p a = false) : dropRightWhileP p l = l := by
  unfold dropRightWhileP
  rw [dropWhile_of_forall_not p l.reverse
    (fun a ha => h a (List.mem_reverse.mp ha)), List.reverse_reverse]

lemma pyIntSigned_of_digit {d : Nat} (t : List Nat) (h48 : 48 ≤ d) (h57 : d ≤ 57) :
    pyIntSigned (d :: t) = (false, d :: t) := by
  unfold pyIntSigned
  split
  · rename_i heq
    rw [List.cons.injEq] at heq
    omega
  · rename_i heq
    rw [List.cons.injEq] at heq
    omega
  · rfl

lemma pyInt_natToAscii (n : Nat) : pyInt (natToAscii n) = some (n : Int) := by
  have hmem := natToAscii_mem n
  have hnospace : ∀ c ∈ natToAscii n, (decide (isSpaceCode c)) = false :=
    fun c hc => digit_not_space (hmem c hc).1 (hmem c hc).2
  have hcore : pyIntCore (natToAscii n) = natToAscii n := by
    unfold pyIntCore
    rw [dropWhile_of_forall_not _ _ hnospace, dropRightWhileP_of_forall_not _ _ hnospace]
  obtain ⟨d, t, hdt⟩ : ∃ d t, natToAscii n = d :: t := by
    cases hx : natToAscii n with
    | nil => exact absurd hx (natToAscii_ne_nil n)
    | cons d t => exact ⟨d, t, rfl⟩
  have hd := hmem d (by rw [hdt]; simp)
  unfold pyInt
  rw [hcore, hdt, pyIntSigned_of_digit t hd.1 hd.2]
  show (if d :: t ≠ [] ∧ ((d :: t).all fun c => decide (isDigitCode c)) = true
      then some (if (false : Bool) = true then -(digitsVal (d :: t) : Int)
        else (digitsVal (d :: t) : Int))
      else none) = some (n : Int)
  rw [if_pos (by
    refine ⟨by simp, ?_⟩
    simp only [List.all_eq_true, decide_eq_true_eq]
    intro c hc
    have := hmem c (by rw [hdt]; exact hc)
    unfold isDigitCode
    omega)]
  simp only [Bool.false_eq_true, if_false, Option.some.injEq]
  rw [← hdt, digitsVal_natToAscii]

/-! ## Lemmas on `pySplit` -/

lemma pySplitAux_no_sep (sep : Nat) (l : List Nat) (h : ∀ c ∈ l, c ≠ sep) :
    ∀ acc, pySplitAux sep l acc = [acc.reverse ++ l] := by
  induction l with
  | nil => intro acc; simp [pySplitAux]
  | cons c rest ih =>
    intro acc
    have hc : c ≠ sep := h c (by simp)
    have hrest : ∀ x ∈ rest, x ≠ sep := fun x hx => h x (by simp [hx])
    unfold pySplitAux
    rw [if_neg hc, ih hrest (c :: acc)]
    simp

lemma pySplitAux_append_sep (sep : Nat) (l1 l2 : List Nat)
    (h : ∀ c ∈ l1, c ≠ sep) :
    ∀ acc, pySplitAux sep (l1 ++ sep :: l2) acc
      = (acc.reverse ++ l1) :: pySplitAux sep l2 [] := by
  induction l1 with
  | nil =>
    intro acc
    simp only [List.nil_append, List.append_nil]
    conv_lhs => rw [pySplitAux]
    rw [if_pos rfl]
  | cons c rest ih =>
    intro acc
    have hc : c ≠ sep := h c (by simp)
    have hrest : ∀ x ∈ rest, x ≠ sep := fun x hx => h x (by simp [hx])
    rw [List.cons_append]
    conv_lhs => rw [pySplitAux]
    rw [if_neg hc, ih hrest (c :: acc)]
    simp


lemma pyTruncDiv_mul (m c : Nat) (hc : 0 < c) :
    pyTruncDiv ((m * c : Nat) : Int) c = (m : Int) := by
  unfold pyTruncDiv
  rcases Nat.eq_zero_or_pos m with rfl | hm
  · simp
  · have hpos : (0 : Int) < ((m * c : Nat) : Int) := by
      exact_mod_cast Nat.mul_pos hm hc
    have hq : m * c / c = m := by
      rw [Nat.mul_div_assoc m (dvd_refl c), Nat.div_self hc, Nat.mul_one]
    rw [Int.sign_eq_one_of_pos hpos, Int.natAbs_ofNat, hq, one_mul]

lemma pyRange_nat (a b : Nat) :
    pyRange (a : Int) (b : Int)
      = (List.range (b - a)).map (fun i : Nat => (a : Int) + (i : Int)) := by
  unfold pyRange
  have h : ((b : Int) - (a : Int)).toNat = b - a := by omega
  rw [h]

lemma encode_decode_pair (x : List Nat) (h : ∀ b ∈ x, b < 128) :
    ∃ p, encode x = some p ∧ decode p = some x := by
  have hrt := decode_encode x h
  cases hx : encode x with
  | none => rw [hx] at hrt; simp at hrt
  | some p => rw [hx, Option.some_bind] at hrt; exact ⟨p, rfl, hrt⟩

lemma get_dash_codes : strCodes "get-" = [103, 101, 116, 45] := rfl

lemma dash_codes : strCodes "-" = [45] := rfl

lemma natToAscii_ne_45 (n : Nat) : ∀ c ∈ natToAscii n, c ≠ 45 := by
  intro c hc
  have := natToAscii_mem n c hc
  omega

lemma natToAscii_ascii (n : Nat) : ∀ c ∈ natToAscii n, c < 128 := by
  intro c hc
  have := natToAscii_mem n c hc
  omega

lemma pySplit_get_single (d : List Nat) (hd : ∀ c ∈ d, c ≠ 45) :
    pySplit 45 (strCodes "get-" ++ d) = [[103, 101, 116], d] := by
  rw [get_dash_codes]
  show pySplitAux 45 ([103, 101, 116] ++ 45 :: d) [] = [[103, 101, 116], d]
  rw [pySplitAux_append_sep 45 [103, 101, 116] d (by decide) [],
    pySplitAux_no_sep 45 d hd []]
  rfl

lemma pySplit_get_batch (d1 d2 : List Nat) (h1 : ∀ c ∈ d1, c ≠ 45)
    (h2 : ∀ c ∈ d2, c ≠ 45) :
    pySplit 45 (strCodes "get-" ++ d1 ++ strCodes "-" ++ d2)
      = [[103, 101, 116], d1, d2] := by
  rw [get_dash_codes, dash_codes]
  show pySplitAux 45 (([103, 101, 116, 45] ++ d1 ++ [45] ++ d2)) []
    = [[103, 101, 116], d1, d2]
  have hshape : [103, 101, 116, 45] ++ d1 ++ [45] ++ d2
      = [103, 101, 116] ++ 45 :: (d1 ++ 45 :: d2) := by simp
  rw [hshape, pySplitAux_append_sep 45 [103, 101, 116] _ (by decide) [],
    pySplitAux_append_sep 45 d1 d2 h1 [],
    pySplitAux_no_sep 45 d2 h2 []]
  rfl


lemma singleLinkString_ascii (m c : Nat) : ∀ b ∈ singleLinkString m c, b < 128 := by
  intro b hb
  unfold singleLinkString at hb
  rcases List.mem_append.mp hb with h1 | h2
  · rw [get_dash_codes] at h1
    simp only [List.mem_cons, List.not_mem_nil, or_false] at h1
    rcases h1 with rfl | rfl | rfl | rfl <;> omega
  · exact natToAscii_ascii _ b h2

lemma batchLinkString_ascii (m1 m2 c : Nat) : ∀ b ∈ batchLinkString m1 m2 c, b < 128 := by
  intro b hb
  unfold batchLinkString at hb
  rcases List.mem_append.mp hb with h0 | h4
  rcases List.mem_append.mp h0 with h0' | h3
  rcases List.mem_append.mp h0' with h1 | h2
  · rw [get_dash_codes] at h1
    simp only [List.mem_cons, List.not_mem_nil, or_false] at h1
    rcases h1 with rfl | rfl | rfl | rfl <;> omega
  · exact natToAscii_ascii _ b h2
  · rw [dash_codes] at h3
    simp only [List.mem_cons, List.not_mem_nil, or_false] at h3
    rw [h3]
    omega
  · exact natToAscii_ascii _ b h4

set_option linter.unusedVariables false in
/-- C1.  Deep links map back to the stored messages they were issued
for: for a stored message with id `m` in the DB channel with absolute
channel id `c`, the generated start payload is the URL-safe base64
encoding of `"get-"` followed by `m * c` (for a batch, `"get-"` with the
first and last products), and decoding that payload in the `/start`
handler yields exactly the original message id `m` (for a batch, exactly
the inclusive range of original ids).  The bound `2 ^ 53` keeps the
quotient of Python's float true division exact. -/
theorem deep_link_roundtrip (m m1 m2 c : Nat) (hc : 0 < c) (hm : m < 2 ^ 53)
    (hm1 : m1 < 2 ^ 53) (hm2 : m2 < 2 ^ 53) :
    (∃ p, encode (singleLinkString m c) = some p ∧
      startPayloadAction c p = .served [(m : Int)]) ∧
    (∃ p, encode (batchLinkString m1 m2 c) = some p ∧
      startPayloadAction c p
        = .served ((List.range (m2 + 1 - m1)).map
            (fun i : Nat => (m1 : Int) + (i : Int)))) := by
  constructor
  · obtain ⟨p, hp, hdec⟩ := encode_decode_pair _ (singleLinkString_ascii m c)
    refine ⟨p, hp, ?_⟩
    unfold startPayloadAction
    rw [hdec, Option.map_some', Option.getD_some]
    unfold singleLinkString
    rw [pySplit_get_single _ (natToAscii_ne_45 _)]
    simp only [startPayloadArgsAction]
    rw [if_neg (by omega)]
    rw [pyInt_natToAscii (m * c), Option.map_some', Option.getD_some,
      pyTruncDiv_mul m c hc]
  · obtain ⟨p, hp, hdec⟩ := encode_decode_pair _ (batchLinkString_ascii m1 m2 c)
    refine ⟨p, hp, ?_⟩
    unfold startPayloadAction
    rw [hdec, Option.map_some', Option.getD_some]
    unfold batchLinkString
    rw [pySplit_get_batch _ _ (natToAscii_ne_45 _) (natToAscii_ne_45 _)]
    simp only [startPayloadArgsAction]
    rw [if_neg (by omega)]
    rw [pyInt_natToAscii (m1 * c), pyInt_natToAscii (m2 * c)]
    rw [Option.some_bind, Option.map_some', Option.getD_some]
    rw [pyTruncDiv_mul m1 c hc, pyTruncDiv_mul m2 c hc]
    have hr : pyRange (m1 : Int) ((m2 : Int) + 1)
        = (List.range (m2 + 1 - m1)).map (fun i : Nat => (m1 : Int) + (i : Int)) := by
      have hcast : ((m2 : Int) + 1) = ((m2 + 1 : Nat) : Int) := by push_cast; ring
      rw [hcast, pyRange_nat m1 (m2 + 1)]
    rw [hr]

/-- Witness for `deep_link_roundtrip` at `m = 7`, `m1 = 2`, `m2 = 5`,
`c = 3`. -/
theorem deep_link_roundtrip_witness :
    (0 < 3 ∧ 7 < 2 ^ 53 ∧ 2 < 2 ^ 53 ∧ 5 < 2 ^ 53) ∧
    ((∃ p, encode (singleLinkString 7 3) = some p ∧
      startPayloadAction 3 p = .served [(7 : Int)]) ∧
    (∃ p, encode (batchLinkString 2 5 3) = some p ∧
      startPayloadAction 3 p
        = .served ((List.range (5 + 1 - 2)).map
            (fun i : Nat => (2 : Int) + (i : Int))))) :=
  ⟨⟨by decide, by decide, by decide, by decide⟩,
    deep_link_roundtrip 7 2 5 3 (by decide) (by decide) (by decide) (by decide)⟩


lemma expiryExitTime_ge (now endTime : Nat) : endTime ≤ expiryExitTime now endTime := by
  induction now, endTime using expiryExitTime.induct with
  | case1 now endTime h ih =>
    rw [expiryExitTime, if_pos h]
    exact ih
  | case2 now endTime h =>
    rw [expiryExitTime, if_neg h]
    omega

/-- C3 counterexample.  As stated, the claim fails on an `_id`
collision: with no entry of the same `file_unique_id` present,
`add_file_to_index` still returns `"duplicate"` (the `_id` unique-index
violation raises `DuplicateKeyError`) and inserts nothing. -/
theorem add_file_to_index_id_clash :
    (∀ e ∈ clashIdx, e.fileUniqueId ≠ "u1") ∧
    clashMsg.document = some { fileUniqueId := "u1", fileName := some "f"
                               fileSize := some 1, duration := some 2 } ∧
    add_file_to_index clashMsg clashIdx = ("duplicate", clashIdx) :=
  ⟨by decide, rfl, by decide⟩

/-- C3 (amended).  `add_file_to_index` returns `"failed"` and changes
nothing on a message with no media; returns `"duplicate"` and leaves the
index unchanged when an entry with the same `file_unique_id` — or, the
amendment, the same `_id` — already exists; otherwise inserts exactly
one entry `{_id, file_unique_id, file_name, file_size, date_added,
duration}` and returns `"new"`. -/
theorem add_file_to_index_spec (msg : IndexMessage) (idx : List FileEntry) :
    (messageMedia msg = none → add_file_to_index msg idx = ("failed", idx)) ∧
    (∀ media, messageMedia msg = some media →
      ((∃ e ∈ idx, e.fileUniqueId = media.fileUniqueId) →
        add_file_to_index msg idx = ("duplicate", idx)) ∧
      ((∀ e ∈ idx, e.fileUniqueId ≠ media.fileUniqueId) →
        ((∃ e ∈ idx, e.id = msg.id) →
          add_file_to_index msg idx = ("duplicate", idx)) ∧
        ((∀ e ∈ idx, e.id ≠ msg.id) →
          add_file_to_index msg idx = ("new",
            idx ++ [{ id := msg.id
                      fileUniqueId := media.fileUniqueId
                      fileName := media.fileName.getD "Photo"
                      fileSize := media.fileSize.getD 0
                      dateAdded := msg.date
                      duration := media.duration.getD 0 }])))) := by
  constructor
  · intro h
    unfold add_file_to_index
    rw [h]
  · intro media hm
    have hred : add_file_to_index msg idx
        = addFileToIndexMedia msg.id msg.date media idx := by
      unfold add_file_to_index
      rw [hm]
    have hfind : ∀ (hyp : ∃ e ∈ idx, e.fileUniqueId = media.fileUniqueId),
        (find_file_by_unique_id media.fileUniqueId idx).isSome = true := by
      intro hyp
      unfold find_file_by_unique_id
      rw [List.find?_isSome]
      obtain ⟨e, he, heq⟩ := hyp
      exact ⟨e, he, by simp [heq]⟩
    have hnofind : (∀ e ∈ idx, e.fileUniqueId ≠ media.fileUniqueId) →
        (find_file_by_unique_id media.fileUniqueId idx).isSome = false := by
      intro hyp
      unfold find_file_by_unique_id
      rw [Bool.eq_false_iff, ne_eq, List.find?_isSome]
      rintro ⟨e, he, heq⟩
      simp only [decide_eq_true_eq] at heq
      exact hyp e he heq
    refine ⟨?_, ?_⟩
    · intro hyp
      rw [hred]
      unfold addFileToIndexMedia
      rw [if_pos (hfind hyp)]
    · intro hyp
      refine ⟨?_, ?_⟩
      · rintro ⟨e, he, heq⟩
        rw [hred]
        unfold addFileToIndexMedia
        rw [if_neg (by rw [hnofind hyp]; simp),
          if_pos (by rw [List.any_eq_true]; exact ⟨e, he, by simp [heq]⟩)]
      · intro hid
        rw [hred]
        unfold addFileToIndexMedia
        rw [if_neg (by rw [hnofind hyp]; simp),
          if_neg (by
            rw [Bool.not_eq_true, Bool.eq_false_iff, ne_eq, List.any_eq_true]
            rintro ⟨e, he, heq⟩
            simp only [decide_eq_true_eq] at heq
            exact hid e he heq)]

/-- Witness for `add_file_to_index_spec`: inserting a fresh document
into the empty index. -/
theorem add_file_to_index_spec_witness :
    add_file_to_index sampleIndexMsg [] = ("new",
      [{ id := 10, fileUniqueId := "u1", fileName := "name.mkv"
         fileSize := 123, dateAdded := 99, duration := 45 }]) :=
  (((add_file_to_index_spec sampleIndexMsg []).2
    { fileUniqueId := "u1", fileName := some "name.mkv"
      fileSize := some 123, duration := some 45 } rfl).2
    (by decide)).2 (by decide)

set_option linter.unusedVariables false in
/-- C4.  With `AUTO_DELETE_TIME > 0`, `handle_file_expiry` deletes the
copied file message once `AUTO_DELETE_TIME` seconds have elapsed since
delivery; on a first delivery it then replaces the countdown message
with a re-request button whose callback data is
`rerequest_<db message id>_<t>` with `t` the deletion-time clock plus
`RE_REQUEST_EXPIRY_HOURS * 3600`, and on a re-requested delivery it
shows the final-expired message instead. -/
theorem handle_file_expiry_spec (startTime adt hrs db : Nat) (h : 0 < adt) :
    ((handle_file_expiry startTime adt hrs db false).fileDeleted = true) ∧
    ((handle_file_expiry startTime adt hrs db true).fileDeleted = true) ∧
    (startTime + adt ≤ (handle_file_expiry startTime adt hrs db false).deletionTime) ∧
    (startTime + adt ≤ (handle_file_expiry startTime adt hrs db true).deletionTime) ∧
    ((handle_file_expiry startTime adt hrs db false).finalMsg
      = .rerequestButton (rerequestCallbackData db
          ((handle_file_expiry startTime adt hrs db false).deletionTime + hrs * 3600))) ∧
    ((handle_file_expiry startTime adt hrs db true).finalMsg = .finalExpired) := by
  unfold handle_file_expiry
  refine ⟨rfl, rfl, expiryExitTime_ge _ _, expiryExitTime_ge _ _, ?_, rfl⟩
  simp

/-- Witness for `handle_file_expiry_spec` at delivery time `0`,
`AUTO_DELETE_TIME = 600`, `RE_REQUEST_EXPIRY_HOURS = 24`, message `42`. -/
theorem handle_file_expiry_spec_witness :
    0 < 600 ∧
    (((handle_file_expiry 0 600 24 42 false).fileDeleted = true) ∧
    ((handle_file_expiry 0 600 24 42 true).fileDeleted = true) ∧
    (0 + 600 ≤ (handle_file_expiry 0 600 24 42 false).deletionTime) ∧
    (0 + 600 ≤ (handle_file_expiry 0 600 24 42 true).deletionTime) ∧
    ((handle_file_expiry 0 600 24 42 false).finalMsg
      = .rerequestButton (rerequestCallbackData 42
          ((handle_file_expiry 0 600 24 42 false).deletionTime + 24 * 3600))) ∧
    ((handle_file_expiry 0 600 24 42 true).finalMsg = .finalExpired)) :=
  ⟨by decide, handle_file_expiry_spec 0 600 24 42 (by decide)⟩


/-! ## Association-list lookup lemmas for the collection model -/

lemma lookup_mapUpdate {β : Type} (l : List (Int × β)) (k u : Int) (f : β → β) :
    (l.map (fun p => if p.1 = k then (p.1, f p.2) else p)).lookup u
      = (l.lookup u).map (fun v => if u = k then f v else v) := by
  induction l with
  | nil => rfl
  | cons a t ih =>
    obtain ⟨ak, av⟩ := a
    simp only [List.map_cons]
    by_cases hk : ak = k
    · rw [if_pos hk]
      by_cases hu : u = ak
      · rw [List.lookup_cons, List.lookup_cons]
        have : (u == ak) = true := by simp [hu]
        rw [this]
        simp only [Option.map_some']
        rw [if_pos (by omega : u = k)]
      · rw [List.lookup_cons, List.lookup_cons]
        have : (u == ak) = false := by simp [hu]
        rw [this, ih]
    · rw [if_neg hk]
      by_cases hu : u = ak
      · rw [List.lookup_cons, List.lookup_cons]
        have : (u == ak) = true := by simp [hu]
        rw [this]
        simp only [Option.map_some']
        rw [if_neg (by omega : ¬ u = k)]
      · rw [List.lookup_cons, List.lookup_cons]
        have : (u == ak) = false := by simp [hu]
        rw [this, ih]

lemma lookup_append_some {β : Type} (l l2 : List (Int × β)) (u : Int)
    (h : (l.lookup u).isSome) : (l ++ l2).lookup u = l.lookup u := by
  induction l with
  | nil => simp [List.lookup] at h
  | cons a t ih =>
    obtain ⟨ak, av⟩ := a
    rw [List.cons_append, List.lookup_cons, List.lookup_cons]
    by_cases hu : u = ak
    · have hb : (u == ak) = true := by simp [hu]
      rw [hb]
    · have hb : (u == ak) = false := by simp [hu]
      rw [hb]
      rw [List.lookup_cons, hb] at h
      exact ih h

lemma lookup_append_none {β : Type} (l l2 : List (Int × β)) (u : Int)
    (h : l.lookup u = none) : (l ++ l2).lookup u = l2.lookup u := by
  induction l with
  | nil => simp
  | cons a t ih =>
    obtain ⟨ak, av⟩ := a
    rw [List.cons_append, List.lookup_cons]
    rw [List.lookup_cons] at h
    by_cases hu : u = ak
    · have hb : (u == ak) = true := by simp [hu]
      rw [hb] at h
      exact absurd h (by simp)
    · have hb : (u == ak) = false := by simp [hu]
      rw [hb] at h ⊢
      exact ih h

lemma lookup_filter_ne {β : Type} (l : List (Int × β)) (k u : Int) (hu : u ≠ k) :
    ((l.filter (fun p => decide (p.1 ≠ k))).lookup u) = l.lookup u := by
  induction l with
  | nil => rfl
  | cons a t ih =>
    obtain ⟨ak, av⟩ := a
    rw [List.filter_cons]
    by_cases hak : ak = k
    · rw [if_neg (by simp [hak])]
      rw [List.lookup_cons]
      have hb : (u == ak) = false := by simp [hak, hu]
      rw [hb, ih]
    · rw [if_pos (by simp [hak])]
      rw [List.lookup_cons, List.lookup_cons]
      by_cases hball : u = ak
      · have hb : (u == ak) = true := by simp [hball]
        rw [hb]
      · have hb : (u == ak) = false := by simp [hball]
        rw [hb, ih]

lemma lookup_singleton {β : Type} (k u : Int) (v : β) :
    ([(k, v)] : List (Int × β)).lookup u = if u = k then some v else none := by
  rw [List.lookup_cons]
  by_cases hu : u = k
  · have hb : (u == k) = true := by simp [hu]
    rw [hb, if_pos hu]
  · have hb : (u == k) = false := by simp [hu]
    rw [hb, if_neg hu]
    rfl


lemma lookup_mongoUpsert_self {β : Type} (k : Int) (f : β → β) (d : β)
    (l : List (Int × β)) :
    (mongoUpsert k f d l).lookup k = some (((l.lookup k).map f).getD d) := by
  unfold mongoUpsert
  by_cases hk : (l.lookup k).isSome = true
  · rw [if_pos hk, lookup_mapUpdate]
    obtain ⟨v, hv⟩ := Option.isSome_iff_exists.mp hk
    rw [hv]
    simp
  · have hnone : l.lookup k = none := by
      cases h : l.lookup k
      · rfl
      · rw [h] at hk; simp at hk
    rw [if_neg hk, lookup_append_none _ _ _ hnone, lookup_singleton, if_pos rfl, hnone]
    rfl

lemma lookup_mongoUpsert_ne {β : Type} (k u : Int) (f : β → β) (d : β)
    (l : List (Int × β)) (h : u ≠ k) :
    (mongoUpsert k f d l).lookup u = l.lookup u := by
  unfold mongoUpsert
  by_cases hk : (l.lookup k).isSome = true
  · rw [if_pos hk, lookup_mapUpdate]
    cases hu : l.lookup u
    · rfl
    · simp [h]
  · rw [if_neg hk]
    cases hu : l.lookup u with
    | none => rw [lookup_append_none _ _ _ hu, lookup_singleton, if_neg h]
    | some v => rw [lookup_append_some _ _ _ (by rw [hu]; rfl), hu]

lemma lookup_filter_self {β : Type} (l : List (Int × β)) (k : Int) :
    (l.filter (fun p => decide (p.1 ≠ k))).lookup k = none := by
  induction l with
  | nil => rfl
  | cons a t ih =>
    obtain ⟨ak, av⟩ := a
    rw [List.filter_cons]
    by_cases hak : ak = k
    · rw [if_neg (by simp [hak])]
      exact ih
    · rw [if_pos (by simp [hak]), List.lookup_cons]
      have hb : (k == ak) = false := by
        simp only [beq_eq_false_iff_ne, ne_eq]
        exact fun h => hak h.symm
      rw [hb]
      exact ih

lemma lookup_mongoUpsert_isSome_mono {β : Type} (k u : Int) (f : β → β) (d : β)
    (l : List (Int × β)) (h : (l.lookup u).isSome = true) :
    ((mongoUpsert k f d l).lookup u).isSome = true := by
  by_cases hu : u = k
  · subst hu
    rw [lookup_mongoUpsert_self]
    rfl
  · rw [lookup_mongoUpsert_ne k u f d l hu]
    exact h

/-- C7.  The analytics collection is an append-only download log: every
database write the program performs either appends exactly one
`{file_id, user_id, timestamp}` record — and only `log_file_download`
does so — or leaves the analytics collection unchanged; no operation
updates or deletes an existing analytics record. -/
theorem analytics_append_only (op : DbOp) (db : Db) :
    ((applyDbOp op db).analytics = db.analytics ∧
      ∀ f u t, op ≠ .logFileDownload f u t) ∨
    (∃ f u t, op = .logFileDownload f u t ∧
      (applyDbOp op db).analytics
        = db.analytics ++ [{ fileId := f, userId := u, timestamp := t }]) := by
  cases op with
  | addUser u t => exact Or.inl ⟨rfl, fun _ _ _ h => DbOp.noConfusion h⟩
  | banUser u => exact Or.inl ⟨rfl, fun _ _ _ h => DbOp.noConfusion h⟩
  | unbanUser u => exact Or.inl ⟨rfl, fun _ _ _ h => DbOp.noConfusion h⟩
  | deleteUser u => exact Or.inl ⟨rfl, fun _ _ _ h => DbOp.noConfusion h⟩
  | logFileDownload f u t => exact Or.inr ⟨f, u, t, rfl, rfl⟩
  | addFileToIndex msg => exact Or.inl ⟨rfl, fun _ _ _ h => DbOp.noConfusion h⟩
  | addGroup g n t => exact Or.inl ⟨rfl, fun _ _ _ h => DbOp.noConfusion h⟩
  | removeGroup g => exact Or.inl ⟨rfl, fun _ _ _ h => DbOp.noConfusion h⟩
  | setSetting k v => exact Or.inl ⟨rfl, fun _ _ _ h => DbOp.noConfusion h⟩


/-- C6.  User documents are never structurally deleted except on
broadcast failure for blocked or deactivated accounts: across every
handler step of the program, if a user id is present before the step
and absent after it, the step is one of the two broadcast loops'
`UserIsBlocked`/`InputUserDeactivated` handlers (start.py line 265,
admin.py line 307) deleting exactly that user; no other operation
shrinks the set of user ids. -/
theorem user_deletion_only_broadcast (s : BotStep) (db : Db) (u : Int)
    (hbefore : (db.users.lookup u).isSome = true)
    (hafter : ((applyBotStep s db).users.lookup u).isSome = false) :
    s = .broadcastBlockedStart u ∨ s = .broadcastBlockedAdmin u := by
  cases s with
  | startRegister u2 t =>
    exfalso
    have h2 := lookup_mongoUpsert_isSome_mono u2 u
      (fun d => { d with banned := false })
      { banned := false, joinedDate := some t } db.users hbefore
    exact Bool.noConfusion (h2.symm.trans hafter)
  | startServe f u2 t =>
    exact absurd hafter (by rw [show (applyBotStep (.startServe f u2 t) db).users
      = db.users from rfl, hbefore]; simp)
  | adminBan u2 =>
    exfalso
    have h2 := lookup_mongoUpsert_isSome_mono u2 u
      (fun d => { d with banned := true })
      { banned := true, joinedDate := none } db.users hbefore
    exact Bool.noConfusion (h2.symm.trans hafter)
  | adminUnban u2 =>
    exfalso
    have h2 := lookup_mongoUpsert_isSome_mono u2 u
      (fun d => { d with banned := false })
      { banned := false, joinedDate := none } db.users hbefore
    exact Bool.noConfusion (h2.symm.trans hafter)
  | broadcastBlockedStart u2 =>
    by_cases hu : u = u2
    · exact Or.inl (by rw [hu])
    · exfalso
      rw [show (applyBotStep (.broadcastBlockedStart u2) db).users
        = db.users.filter (fun p => decide (p.1 ≠ u2)) from rfl,
        lookup_filter_ne db.users u2 u hu] at hafter
      exact Bool.noConfusion (hbefore.symm.trans hafter)
  | broadcastBlockedAdmin u2 =>
    by_cases hu : u = u2
    · exact Or.inr (by rw [hu])
    · exfalso
      rw [show (applyBotStep (.broadcastBlockedAdmin u2) db).users
        = db.users.filter (fun p => decide (p.1 ≠ u2)) from rfl,
        lookup_filter_ne db.users u2 u hu] at hafter
      exact Bool.noConfusion (hbefore.symm.trans hafter)
  | indexFile msg =>
    exact absurd hafter (by rw [show (applyBotStep (.indexFile msg) db).users
      = db.users from rfl, hbefore]; simp)
  | approveGroup g n t =>
    exact absurd hafter (by rw [show (applyBotStep (.approveGroup g n t) db).users
      = db.users from rfl, hbefore]; simp)
  | disapproveGroup g =>
    exact absurd hafter (by rw [show (applyBotStep (.disapproveGroup g) db).users
      = db.users from rfl, hbefore]; simp)
  | storeSetting k v =>
    exact absurd hafter (by rw [show (applyBotStep (.storeSetting k v) db).users
      = db.users from rfl, hbefore]; simp)

/-- Witness for `user_deletion_only_broadcast`: a broadcast to user `5`
hits `UserIsBlocked` and the document disappears. -/
theorem user_deletion_only_broadcast_witness :
    ((dbUser5.users.lookup 5).isSome = true) ∧
    (((applyBotStep (.broadcastBlockedStart 5) dbUser5).users.lookup 5).isSome
      = false) ∧
    (BotStep.broadcastBlockedStart 5 = .broadcastBlockedStart 5 ∨
      BotStep.broadcastBlockedStart 5 = .broadcastBlockedAdmin 5) :=
  ⟨by decide, by decide,
    user_deletion_only_broadcast (.broadcastBlockedStart 5) dbUser5 5
      (by decide) (by decide)⟩

/-- C5 counterexample.  `ban_user` is an upsert: applied to an absent
user id it creates a user document, contradicting "ban and unban only
mutate an existing document and never bring a new user document into
existence". -/
theorem ban_user_creates_document :
    dbEmpty.users.lookup 99 = none ∧
    (applyDbOp (.banUser 99) dbEmpty).users.lookup 99
      = some { banned := true, joinedDate := none } :=
  ⟨rfl, by decide⟩

/-- C5 (amended).  A user document bearing a `joined_date` is created
only by `add_user` on first `/start` (with `banned = False` and
`joined_date` set on insert); `ban_user` and `unban_user`, being
upserts, create a document holding only the `banned` flag when the user
id is absent; no other database operation brings a user document into
existence. -/
theorem user_creation_characterization (op : DbOp) (db : Db) (u : Int)
    (habsent : db.users.lookup u = none)
    (hpresent : ((applyDbOp op db).users.lookup u).isSome = true) :
    (∃ t, op = .addUser u t ∧ (applyDbOp op db).users.lookup u
        = some { banned := false, joinedDate := some t }) ∨
    (op = .banUser u ∧ (applyDbOp op db).users.lookup u
        = some { banned := true, joinedDate := none }) ∨
    (op = .unbanUser u ∧ (applyDbOp op db).users.lookup u
        = some { banned := false, joinedDate := none }) := by
  cases op with
  | addUser u2 t =>
    by_cases hu : u = u2
    · subst hu
      left
      refine ⟨t, rfl, ?_⟩
      rw [show (applyDbOp (.addUser u t) db).users
        = mongoUpsert u (fun d => { d with banned := false })
          { banned := false, joinedDate := some t } db.users from rfl,
        lookup_mongoUpsert_self, habsent]
      rfl
    · exfalso
      rw [show (applyDbOp (.addUser u2 t) db).users
        = mongoUpsert u2 (fun d => { d with banned := false })
          { banned := false, joinedDate := some t } db.users from rfl,
        lookup_mongoUpsert_ne u2 u _ _ db.users hu, habsent] at hpresent
      exact Bool.noConfusion hpresent
  | banUser u2 =>
    by_cases hu : u = u2
    · subst hu
      right; left
      refine ⟨rfl, ?_⟩
      rw [show (applyDbOp (.banUser u) db).users
        = mongoUpsert u (fun d => { d with banned := true })
          { banned := true, joinedDate := none } db.users from rfl,
        lookup_mongoUpsert_self, habsent]
      rfl
    · exfalso
      rw [show (applyDbOp (.banUser u2) db).users
        = mongoUpsert u2 (fun d => { d with banned := true })
          { banned := true, joinedDate := none } db.users from rfl,
        lookup_mongoUpsert_ne u2 u _ _ db.users hu, habsent] at hpresent
      exact Bool.noConfusion hpresent
  | unbanUser u2 =>
    by_cases hu : u = u2
    · subst hu
      right; right
      refine ⟨rfl, ?_⟩
      rw [show (applyDbOp (.unbanUser u) db).users
        = mongoUpsert u (fun d => { d with banned := false })
          { banned := false, joinedDate := none } db.users from rfl,
        lookup_mongoUpsert_self, habsent]
      rfl
    · exfalso
      rw [show (applyDbOp (.unbanUser u2) db).users
        = mongoUpsert u2 (fun d => { d with banned := false })
          { banned := false, joinedDate := none } db.users from rfl,
        lookup_mongoUpsert_ne u2 u _ _ db.users hu, habsent] at hpresent
      exact Bool.noConfusion hpresent
  | deleteUser u2 =>
    exfalso
    by_cases hu : u = u2
    · subst hu
      rw [show (applyDbOp (.deleteUser u) db).users
        = db.users.filter (fun p => decide (p.1 ≠ u)) from rfl,
        lookup_filter_self] at hpresent
      exact Bool.noConfusion hpresent
    · rw [show (applyDbOp (.deleteUser u2) db).users
        = db.users.filter (fun p => decide (p.1 ≠ u2)) from rfl,
        lookup_filter_ne db.users u2 u hu, habsent] at hpresent
      exact Bool.noConfusion hpresent
  | logFileDownload f u2 t =>
    exfalso
    rw [show (applyDbOp (.logFileDownload f u2 t) db).users = db.users from rfl,
      habsent] at hpresent
    exact Bool.noConfusion hpresent
  | addFileToIndex msg =>
    exfalso
    rw [show (applyDbOp (.addFileToIndex msg) db).users = db.users from rfl,
      habsent] at hpresent
    exact Bool.noConfusion hpresent
  | addGroup g n t =>
    exfalso
    rw [show (applyDbOp (.addGroup g n t) db).users = db.users from rfl,
      habsent] at hpresent
    exact Bool.noConfusion hpresent
  | removeGroup g =>
    exfalso
    rw [show (applyDbOp (.removeGroup g) db).users = db.users from rfl,
      habsent] at hpresent
    exact Bool.noConfusion hpresent
  | setSetting k v =>
    exfalso
    rw [show (applyDbOp (.setSetting k v) db).users = db.users from rfl,
      habsent] at hpresent
    exact Bool.noConfusion hpresent

/-- Witness for `user_creation_characterization`: first `/start` of
user `7` at time `123` creates their document. -/
theorem user_creation_characterization_witness :
    (dbEmpty.users.lookup 7 = none) ∧
    (((applyDbOp (.addUser 7 123) dbEmpty).users.lookup 7).isSome = true) ∧
    ((∃ t, DbOp.addUser 7 123 = .addUser 7 t ∧
        (applyDbOp (.addUser 7 123) dbEmpty).users.lookup 7
          = some { banned := false, joinedDate := some t }) ∨
      (DbOp.addUser 7 123 = .banUser 7 ∧
        (applyDbOp (.addUser 7 123) dbEmpty).users.lookup 7
          = some { banned := true, joinedDate := none }) ∨
      (DbOp.addUser 7 123 = .unbanUser 7 ∧
        (applyDbOp (.addUser 7 123) dbEmpty).users.lookup 7
          = some { banned := false, joinedDate := none })) :=
  ⟨rfl, by decide,
    user_creation_characterization (.addUser 7 123) dbEmpty 7 rfl (by decide)⟩


/-- C2 counterexample.  No periodic sweep exists: a session whose
`last_active` is arbitrarily far past `SESSION_TIMEOUT` survives any
amount of handler-free time — after any number of clock ticks beyond
time `10 ^ 9`, admin 1's session from time 0 is still present.  (This
refutes "some periodically running task eventually removes that
session": `SESSION_TIMEOUT` is never imported and no task scans
`WORKSPACE_SESSIONS`.) -/
theorem workspace_session_never_reaped :
    staleSession.lastActive + SESSION_TIMEOUT < 10 ^ 9 ∧
    ∀ n : Nat, (applyWsEvents
        ((List.range n).map (fun i => WsEvent.tick (10 ^ 9 + i)))
        staleState).lookup 1 = some staleSession := by
  refine ⟨by decide, ?_⟩
  intro n
  induction n with
  | zero => rfl
  | succ k ih =>
    rw [List.range_succ, List.map_append]
    unfold applyWsEvents
    rw [List.foldl_append]
    simp only [List.map_cons, List.map_nil, List.foldl_cons, List.foldl_nil]
    exact ih

/-- C2 (amended).  Workspace sessions are removed only by the admin's
own explicit actions — a new `/process` command or the Close Session
button; no step driven by time or by `last_active` exceeding
`SESSION_TIMEOUT` removes a session, because no periodic sweep exists
in the source. -/
theorem workspace_session_removal_explicit (e : WsEvent)
    (st : List (Int × WsSession)) (u : Int)
    (hbefore : (st.lookup u).isSome = true)
    (hafter : ((applyWsEvent e st).lookup u).isSome = false) :
    e = .processCommand u ∨ ∃ m, e = .cleanupCallback u m := by
  cases e with
  | processCommand u2 =>
    by_cases hu : u = u2
    · exact Or.inl (by rw [hu])
    · exfalso
      rw [show applyWsEvent (.processCommand u2) st
          = st.filter (fun p => decide (p.1 ≠ u2)) from rfl,
        lookup_filter_ne st u2 u hu] at hafter
      exact Bool.noConfusion (hbefore.symm.trans hafter)
  | videoReceived u2 sess =>
    exfalso
    have h2 := lookup_mongoUpsert_isSome_mono u2 u (fun _ => sess) sess st hbefore
    exact Bool.noConfusion (h2.symm.trans hafter)
  | callbackTouch u2 m now =>
    exfalso
    rw [show applyWsEvent (.callbackTouch u2 m now) st
        = touchSession u2 m now st from rfl] at hafter
    cases h2 : st.lookup u2 with
    | none =>
      have heff : touchSession u2 m now st = st := by
        simp [touchSession, h2]
      rw [heff] at hafter
      exact Bool.noConfusion (hbefore.symm.trans hafter)
    | some sess =>
      by_cases hm : sess.msgId = m
      · have heff : touchSession u2 m now st
            = mongoUpsert u2 (fun s => { s with lastActive := now })
              { sess with lastActive := now } st := by
          simp [touchSession, h2, hm]
        rw [heff] at hafter
        have h3 := lookup_mongoUpsert_isSome_mono u2 u
          (fun s => { s with lastActive := now })
          { sess with lastActive := now } st hbefore
        exact Bool.noConfusion (h3.symm.trans hafter)
      · have heff : touchSession u2 m now st = st := by
          simp [touchSession, h2, hm]
        rw [heff] at hafter
        exact Bool.noConfusion (hbefore.symm.trans hafter)
  | cleanupCallback u2 m =>
    by_cases hu : u = u2
    · exact Or.inr ⟨m, by rw [hu]⟩
    · exfalso
      rw [show applyWsEvent (.cleanupCallback u2 m) st = wsCleanup u2 m st from rfl]
        at hafter
      cases h2 : st.lookup u2 with
      | none =>
        have heff : wsCleanup u2 m st = st := by
          simp [wsCleanup, h2]
        rw [heff] at hafter
        exact Bool.noConfusion (hbefore.symm.trans hafter)
      | some sess =>
        by_cases hm : sess.msgId = m
        · have heff : wsCleanup u2 m st = st.filter (fun p => decide (p.1 ≠ u2)) := by
            simp [wsCleanup, h2, hm]
          rw [heff, lookup_filter_ne st u2 u hu] at hafter
          exact Bool.noConfusion (hbefore.symm.trans hafter)
        · have heff : wsCleanup u2 m st = st := by
            simp [wsCleanup, h2, hm]
          rw [heff] at hafter
          exact Bool.noConfusion (hbefore.symm.trans hafter)
  | processingRun u2 path now =>
    exfalso
    rw [show applyWsEvent (.processingRun u2 path now) st
        = wsProcessing u2 path now st from rfl] at hafter
    cases h2 : st.lookup u2 with
    | none =>
      have heff : wsProcessing u2 path now st = st := by
        simp [wsProcessing, h2]
      rw [heff] at hafter
      exact Bool.noConfusion (hbefore.symm.trans hafter)
    | some sess =>
      have heff : wsProcessing u2 path now st
          = mongoUpsert u2
            (fun s => { s with filePath := some path, lastActive := now })
            { sess with filePath := some path, lastActive := now } st := by
        simp [wsProcessing, h2]
      rw [heff] at hafter
      have h3 := lookup_mongoUpsert_isSome_mono u2 u
        (fun s => { s with filePath := some path, lastActive := now })
        { sess with filePath := some path, lastActive := now } st hbefore
      exact Bool.noConfusion (h3.symm.trans hafter)
  | tick t =>
    exfalso
    rw [show applyWsEvent (.tick t) st = st from rfl] at hafter
    exact Bool.noConfusion (hbefore.symm.trans hafter)

/-- Witness for `workspace_session_removal_explicit`: the Close Session
button removes admin 1's session. -/
theorem workspace_session_removal_explicit_witness :
    ((staleState.lookup 1).isSome = true) ∧
    (((applyWsEvent (.cleanupCallback 1 3) staleState).lookup 1).isSome = false) ∧
    (WsEvent.cleanupCallback 1 3 = .processCommand 1 ∨
      ∃ m, WsEvent.cleanupCallback 1 3 = .cleanupCallback 1 m) :=
  ⟨by decide, by decide,
    workspace_session_removal_explicit (.cleanupCallback 1 3) staleState 1
      (by decide) (by decide)⟩


/-- C9.  The re-request callback re-sends a file only when its callback
data parses as `rerequest_<id>_<timestamp>` and the current time is not
past the embedded timestamp; on malformed callback data it sends no
file (broken-button alert), and on a passed timestamp it sends no file
and edits the prompt to the final-expired message. -/
theorem rerequest_resend_guard (data : List Nat) (now : Int) (ff : Bool) :
    (∀ db, rerequest_callback_handler data now ff = .resent db →
      ∃ ts, parseRerequest data = some (db, ts) ∧ ¬ now > ts ∧ ff = true) ∧
    (parseRerequest data = none →
      rerequest_callback_handler data now ff = .brokenAlert) ∧
    (∀ db ts, parseRerequest data = some (db, ts) → now > ts →
      rerequest_callback_handler data now ff = .expiredEdit) := by
  refine ⟨?_, ?_, ?_⟩
  · intro db hres
    cases hp : parseRerequest data with
    | none =>
      rw [show rerequest_callback_handler data now ff = .brokenAlert by
        unfold rerequest_callback_handler; rw [hp]] at hres
      exact RerequestOutcome.noConfusion hres
    | some pair =>
      obtain ⟨a, b⟩ := pair
      have hred : rerequest_callback_handler data now ff
          = rerequestDecision a b now ff := by
        unfold rerequest_callback_handler
        rw [hp]
      rw [hred] at hres
      unfold rerequestDecision at hres
      by_cases hexp : now > b
      · rw [if_pos hexp] at hres
        exact RerequestOutcome.noConfusion hres
      · rw [if_neg hexp] at hres
        cases ff with
        | false =>
          rw [if_neg (by simp)] at hres
          exact RerequestOutcome.noConfusion hres
        | true =>
          rw [if_pos rfl] at hres
          have hadb : a = db := by
            cases hres
            rfl
          subst hadb
          exact ⟨b, rfl, hexp, rfl⟩
  · intro hp
    unfold rerequest_callback_handler
    rw [hp]
  · intro db ts hp hexp
    have hred : rerequest_callback_handler data now ff
        = rerequestDecision db ts now ff := by
      unfold rerequest_callback_handler
      rw [hp]
    rw [hred]
    unfold rerequestDecision
    rw [if_pos hexp]

/-- Witness for `rerequest_resend_guard`: callback data
`"rerequest_12_99"` clicked at time 50 with the file present is
re-sent, and its parse is exactly `(12, 99)`. -/
theorem rerequest_resend_guard_witness :
    (rerequest_callback_handler (strCodes "rerequest_12_99") 50 true
      = .resent 12) ∧
    (∃ ts, parseRerequest (strCodes "rerequest_12_99") = some (12, ts) ∧
      ¬ (50 : Int) > ts ∧ true = true) :=
  ⟨by decide,
    (rerequest_resend_guard (strCodes "rerequest_12_99") 50 true).1 12 (by decide)⟩


lemma dedup_enumFrom_forbid (l : List SearchDoc) :
    ∀ (full ctx : List SearchDoc) (bad : Option String → Bool),
      full = ctx ++ l →
      (∀ o, bad o = ctx.any (fun d => decide (d.fileName = o))) →
      (List.enumFrom ctx.length l).filterMap (fun p =>
        if (full.take p.1).any (fun d => decide (d.fileName = p.2.fileName)) then none
        else some p.2) = dedupForbid bad l := by
  induction l with
  | nil => intro full ctx bad hfull hb; rfl
  | cons d rest ih =>
    intro full ctx bad hfull hb
    rw [List.enumFrom_cons]
    have hhead : (full.take ctx.length).any
        (fun x => decide (x.fileName = d.fileName)) = bad d.fileName := by
      rw [hfull, List.take_left, hb d.fileName]
    have hf : (if (full.take ctx.length).any
          (fun x => decide (x.fileName = d.fileName)) then (none : Option SearchDoc)
        else some d) = (if bad d.fileName then none else some d) := by
      rw [hhead]
    have hfull2 : full = (ctx ++ [d]) ++ rest := by rw [hfull]; simp
    have hlen2 : (ctx ++ [d]).length = ctx.length + 1 := by simp
    by_cases hbd : bad d.fileName = true
    · rw [List.filterMap_cons, hf, if_pos hbd]
      unfold dedupForbid
      rw [if_pos hbd]
      have hb2 : ∀ o, bad o = (ctx ++ [d]).any (fun x => decide (x.fileName = o)) := by
        intro o
        rw [List.any_append, ← hb o]
        have hsingle : ([d].any (fun x => decide (x.fileName = o)))
            = decide (d.fileName = o) := by simp
        rw [hsingle]
        by_cases ho : d.fileName = o
        · subst ho
          simp [hbd]
        · simp [ho]
      have hrec := ih full (ctx ++ [d]) bad hfull2 hb2
      rw [hlen2] at hrec
      exact hrec
    · rw [List.filterMap_cons, hf, if_neg hbd]
      unfold dedupForbid
      rw [if_neg hbd]
      have hb2 : ∀ o, (bad o || decide (d.fileName = o))
          = (ctx ++ [d]).any (fun x => decide (x.fileName = o)) := by
        intro o
        rw [List.any_append, ← hb o]
        simp
      have hrec := ih full (ctx ++ [d]) (fun o => bad o || decide (d.fileName = o))
        hfull2 hb2
      rw [hlen2] at hrec
      exact congrArg (List.cons d) hrec

lemma dedupForbid_sublist (bad : Option String → Bool) (l : List SearchDoc) :
    List.Sublist (dedupForbid bad l) l := by
  induction l generalizing bad with
  | nil => exact List.Sublist.refl []
  | cons d rest ih =>
    unfold dedupForbid
    by_cases hb : bad d.fileName = true
    · rw [if_pos hb]
      exact List.Sublist.cons d (ih bad)
    · rw [if_neg hb]
      exact List.Sublist.cons₂ d (ih _)

lemma dedupForbid_not_bad (bad : Option String → Bool) (l : List SearchDoc) :
    ∀ d2 ∈ dedupForbid bad l, bad d2.fileName = false := by
  induction l generalizing bad with
  | nil => intro d2 hd2; cases hd2
  | cons d rest ih =>
    unfold dedupForbid
    by_cases hb : bad d.fileName = true
    · rw [if_pos hb]
      exact ih bad
    · rw [if_neg hb]
      intro d2 hd2
      rcases List.mem_cons.mp hd2 with rfl | hmem
      · exact Bool.not_eq_true _ ▸ Bool.eq_false_iff.mpr hb
      · have h2 := ih (fun o => bad o || decide (d.fileName = o)) d2 hmem
        rw [Bool.or_eq_false_iff] at h2
        exact h2.1

lemma dedupForbid_names_nodup (bad : Option String → Bool) (l : List SearchDoc) :
    ((dedupForbid bad l).map SearchDoc.fileName).Nodup := by
  induction l generalizing bad with
  | nil => exact List.nodup_nil
  | cons d rest ih =>
    unfold dedupForbid
    by_cases hb : bad d.fileName = true
    · rw [if_pos hb]
      exact ih bad
    · rw [if_neg hb]
      simp only [List.map_cons, List.nodup_cons]
      refine ⟨?_, ih _⟩
      intro hmem
      rw [List.mem_map] at hmem
      obtain ⟨d2, hd2, hname⟩ := hmem
      have h3 := dedupForbid_not_bad _ _ d2 hd2
      rw [Bool.or_eq_false_iff] at h3
      have h4 := h3.2
      rw [hname] at h4
      simp at h4

lemma dedupForbid_covers (bad : Option String → Bool) (l : List SearchDoc) :
    ∀ d ∈ l, bad d.fileName = false →
      ∃ d2 ∈ dedupForbid bad l, d2.fileName = d.fileName := by
  induction l generalizing bad with
  | nil => intro d hd; cases hd
  | cons hd rest ih =>
    intro d hdmem hbad
    unfold dedupForbid
    by_cases hb : bad hd.fileName = true
    · rw [if_pos hb]
      rcases List.mem_cons.mp hdmem with rfl | hmem
      · rw [hbad] at hb
        cases hb
      · exact ih bad d hmem hbad
    · rw [if_neg hb]
      rcases List.mem_cons.mp hdmem with rfl | hmem
      · exact ⟨d, List.mem_cons_self d _, rfl⟩
      · by_cases heq : hd.fileName = d.fileName
        · exact ⟨hd, List.mem_cons_self hd _, heq⟩
        · have hbad2 : (fun o => bad o || decide (hd.fileName = o)) d.fileName = false := by
            simp [hbad, heq]
          obtain ⟨d2, hd2, hn⟩ :=
            ih (fun o => bad o || decide (hd.fileName = o)) d hmem hbad2
          exact ⟨d2, List.mem_cons_of_mem hd hd2, hn⟩

lemma dedupForbid_first_occ (bad : Option String → Bool) (l : List SearchDoc) :
    ∀ d2 ∈ dedupForbid bad l,
      ∃ pre post, l = pre ++ d2 :: post ∧ ∀ d ∈ pre, d.fileName ≠ d2.fileName := by
  induction l generalizing bad with
  | nil => intro d2 hd2; cases hd2
  | cons hd rest ih =>
    intro d2 hd2
    unfold dedupForbid at hd2
    by_cases hb : bad hd.fileName = true
    · rw [if_pos hb] at hd2
      obtain ⟨pre, post, heq, hpre⟩ := ih bad d2 hd2
      refine ⟨hd :: pre, post, by rw [List.cons_append, heq], ?_⟩
      intro d hd3
      rcases List.mem_cons.mp hd3 with rfl | hmem
      · have h3 := dedupForbid_not_bad bad rest d2 hd2
        intro hcontra
        rw [← hcontra] at h3
        rw [h3] at hb
        cases hb
      · exact hpre d hmem
    · rw [if_neg hb] at hd2
      rcases List.mem_cons.mp hd2 with rfl | hmem
      · exact ⟨[], rest, rfl, by intro d hd3; cases hd3⟩
      · obtain ⟨pre, post, heq, hpre⟩ := ih _ d2 hmem
        refine ⟨hd :: pre, post, by rw [List.cons_append, heq], ?_⟩
        intro d hd3
        rcases List.mem_cons.mp hd3 with rfl | hmem2
        · have h3 := dedupForbid_not_bad _ rest d2 hmem
          rw [Bool.or_eq_false_iff] at h3
          have h4 := h3.2
          intro hcontra
          rw [hcontra] at h4
          simp at h4
        · exact hpre d hmem2


lemma dedupResults_eq_forbid (results : List SearchDoc) :
    dedupResults results = dedupForbid (fun _ => false) results := by
  unfold dedupResults
  exact dedup_enumFrom_forbid results results [] (fun _ => false) rfl (fun o => rfl)

/-- C10.  The de-duplicated list served for a deep-link search contains
exactly the first result for each distinct `file_name`, in the same
relative order as the original result list: it is a sublist of the
results (order preserved), its file names are pairwise distinct, every
file name of the results is represented, and every kept document is the
first of the results bearing its file name. -/
theorem dedup_first_occurrences (results : List SearchDoc) :
    List.Sublist (dedupResults results) results ∧
    ((dedupResults results).map SearchDoc.fileName).Nodup ∧
    (∀ d ∈ results, ∃ d2 ∈ dedupResults results, d2.fileName = d.fileName) ∧
    (∀ d2 ∈ dedupResults results, ∃ pre post, results = pre ++ d2 :: post ∧
      ∀ d ∈ pre, d.fileName ≠ d2.fileName) := by
  rw [dedupResults_eq_forbid]
  exact ⟨dedupForbid_sublist _ _, dedupForbid_names_nodup _ _,
    fun d hd => dedupForbid_covers _ _ d hd rfl, dedupForbid_first_occ _ _⟩

/-- Witness for `dedup_first_occurrences`: in `sampleResults`, the
duplicated name "x" of the third document is represented in the served
list (by its first occurrence). -/
theorem dedup_first_occurrences_witness :
    (({ docId := 3, fileName := some "x" } : SearchDoc) ∈ sampleResults) ∧
    (∃ d2 ∈ dedupResults sampleResults,
      d2.fileName = ({ docId := 3, fileName := some "x" } : SearchDoc).fileName) :=
  ⟨by decide,
    (dedup_first_occurrences sampleResults).2.2.1
      { docId := 3, fileName := some "x" } (by decide)⟩

end HDC
